import Mathlib

/-!
Verification of the response-envelope decoding / success-check logic
(`thrift/response.go`) and of the HTTP transport call layer of the yab
client library.  Pure Go functions are embedded as Lean functions; the
external collaborators (the binary-protocol codec `protocol.Binary.Decode`
and the per-type value decoder `valueFromWire`) are passed in as explicit
arguments, mirroring their role as external dependencies of the code.
Go `panic` is modelled by a dedicated outcome constructor, and Go error
values by their message strings.
-/

set_option autoImplicit false

/-! ## Substring machinery (for claims about error-message contents) -/

/-- Boolean test: is `sub` a leading segment of `l`? -/
def leadEq : List Char → List Char → Bool
  | [], _ => true
  | _ :: _, [] => false
  | a :: as, b :: bs => a == b && leadEq as bs

/-- Boolean test: does `sub` occur contiguously inside `l`? -/
def containsSeq (sub : List Char) : List Char → Bool
  | [] => leadEq sub []
  | b :: bs => leadEq sub (b :: bs) || containsSeq sub bs

/-- `IsSubstr sub s` holds iff `sub` occurs contiguously inside `s`. -/
def IsSubstr (sub s : String) : Bool :=
  containsSeq sub.data s.data

/-! ## Go `panic` as an explicit outcome -/

/-- Result of a Go computation that may `panic`: either it aborts the process
with a message, or it completes with a value (itself possibly an error). -/
inductive PanicOr (α : Type) where
  | fatal (msg : String)
  | ok (a : α)
  deriving DecidableEq

namespace Thrift

/-! ## Data model (from `thriftrw` wire/compile types used by `response.go`) -/

/-- `wire.Field`: one field of a decoded Thrift struct (`ID int16`, `Value`).
The wire-value payload type `V` is abstract: the codec supplies it. -/
structure WField (V : Type) where
  id : Int
  value : V
  deriving DecidableEq

/-- `wire.Type`: the type tag carried by a decoded `wire.Value`. -/
inductive WireType where
  | tBool | tI8 | tDouble | tI16 | tI32 | tI64 | tBinary | tStruct | tMap | tSet | tList
  deriving DecidableEq

/-- The root `wire.Value` returned by `protocol.Binary.Decode`: a type tag
(`Type()`) together with the struct fields (`GetStruct().Fields`). -/
structure Root (V : Type) where
  tag : WireType
  fields : List (WField V)
  deriving DecidableEq

/-- `compile.FieldSpec`: id, name and type of one declared exception field. -/
structure FieldSpec (T : Type) where
  id : Int
  name : String
  type : T
  deriving DecidableEq

/-- `compile.ResultSpec`: optional return type plus declared exceptions. -/
structure ResultSpec (T : Type) where
  returnType : Option T
  exceptions : List (FieldSpec T)
  deriving DecidableEq

/-- `compile.FunctionSpec`: the per-method metadata (only the `ResultSpec`
pointer is read by `response.go`; `nil` is `none`). -/
structure FunctionSpec (T : Type) where
  resultSpec : Option (ResultSpec T)
  deriving DecidableEq

/-! ## Message strings (verbatim from `response.go`) -/

def msgCannotParse : String := "cannot parse Thrift struct from response: "

def msgUnexpectedType : String := "Got unexpected type when parsing struct"

def msgVoidResult : String := "got unexpected result for void method: "

def msgUnknownEx : String := "got unknown exception with ID "

def msgParseField : String := "failed to parse result field "

def msgSep : String := ": "

def msgCouldNotDeserialize : String := "could not deserialize result: "

def msgVoidUnexpected : String := "void method got unexpected result, fields: "

def msgVoidException : String := "void method got exception: "

def msgNotOneField : String := "method with return did not get 1 field in result: "

def msgReturnException : String := "method with return got exception: "

def msgNoExceptions : String := "unknown, method has no exceptions"

def msgUnknown : String := "unknown"

def strResult : String := "result"

def strSpace : String := " "

def fmtFieldPre : String := "\x7bID:"

def fmtFieldMid : String := " Value:"

def fmtFieldSuf : String := "\x7d"

def strLBracket : String := "["

def strRBracket : String := "]"

/-- The phrase the spec claims both error messages contain for a void method
that received a result field. -/
def phraseVoidMap : String := "unexpected result for void method"

/-- The phrase `CheckSuccess` actually uses for that case. -/
def phraseVoidCheck : String := "void method got unexpected result"

/-! ## Helper functions -/

/-- The `spec.ResultSpec == nil || spec.ResultSpec.ReturnType == nil` test:
the method's return type, when it declares one. -/
def returnTypeOf {T : Type} (spec : FunctionSpec T) : Option T :=
  match spec.resultSpec with
  | none => none
  | some rs => rs.returnType

/-- Modelled from the spec: the repo's `getFieldMap` helper (not under `src/`)
builds an id-keyed exception-descriptor lookup from the declared exceptions
(spec section 4.2 step 2); exception ids are unique within a method. -/
def getFieldMap {T : Type} (exs : List (FieldSpec T)) (id : Int) : Option (FieldSpec T) :=
  exs.find? (fun ex => ex.id == id)

/-- Lookup in the `specs` map of `ResponseBytesToMap`: the map stays `nil`
(every lookup misses) when `spec.ResultSpec` is `nil`. -/
def lookupEx {T : Type} (spec : FunctionSpec T) (id : Int) : Option (FieldSpec T) :=
  match spec.resultSpec with
  | none => none
  | some rs => getFieldMap rs.exceptions id

/-- The declared exceptions of a method (empty when `ResultSpec` is `nil`). -/
def declaredExceptions {T : Type} (spec : FunctionSpec T) : List (FieldSpec T) :=
  match spec.resultSpec with
  | none => []
  | some rs => rs.exceptions

/-- Go map assignment `m[k] = v`: replace the entry for `k` if present,
else append. -/
def mapInsert {U : Type} (m : List (String × U)) (k : String) (v : U) : List (String × U) :=
  match m with
  | [] => [(k, v)]
  | (k', v') :: rest => if k' == k then (k, v) :: rest else (k', v') :: mapInsert rest k v

/-- Go `%+v` of one `wire.Field`. -/
def fmtField {V : Type} (showV : V → String) (f : WField V) : String :=
  fmtFieldPre ++ toString f.id ++ fmtFieldMid ++ showV f.value ++ fmtFieldSuf

/-- Go `%+v` of a `[]wire.Field` slice. -/
def fmtFields {V : Type} (showV : V → String) (fields : List (WField V)) : String :=
  strLBracket ++ String.intercalate strSpace (fields.map (fmtField showV)) ++ strRBracket

/-! ## The functions of `response.go` -/

/-- `responseBytesToWire`: `dr` is what `protocol.Binary.Decode(bytes, TStruct)`
returned on the response bytes.  A codec error is wrapped; a root value whose
type tag is not `TStruct` panics; otherwise the struct fields are returned. -/
def responseBytesToWire {V : Type} (dr : Except String (Root V)) :
    PanicOr (Except String (List (WField V))) :=
  match dr with
  | Except.error e => PanicOr.ok (Except.error (msgCannotParse ++ e))
  | Except.ok w =>
    if w.tag = WireType.tStruct then PanicOr.ok (Except.ok w.fields)
    else PanicOr.fatal msgUnexpectedType

/-- The field loop of `ResponseBytesToMap`: processes the decoded fields in
order, accumulating the result map; the first per-field failure aborts. -/
def processFields {T V U : Type} (spec : FunctionSpec T)
    (valueFromWire : T → V → Except String U) (showV : V → String) :
    List (WField V) → List (String × U) → Except String (List (String × U))
  | [], result => Except.ok result
  | f :: rest, result =>
    if f.id = 0 then
      match returnTypeOf spec with
      | none => Except.error (msgVoidResult ++ showV f.value)
      | some rt =>
        match valueFromWire rt f.value with
        | Except.error e => Except.error (msgParseField ++ toString f.id ++ msgSep ++ e)
        | Except.ok u => processFields spec valueFromWire showV rest (mapInsert result strResult u)
    else
      match lookupEx spec f.id with
      | none => Except.error (msgUnknownEx ++ toString f.id ++ msgSep ++ showV f.value)
      | some ex =>
        match valueFromWire ex.type f.value with
        | Except.error e => Except.error (msgParseField ++ toString f.id ++ msgSep ++ e)
        | Except.ok u => processFields spec valueFromWire showV rest (mapInsert result ex.name u)

/-- `ResponseBytesToMap`: decode the envelope, then map each field to a
named entry (`"result"` for field id 0, the declared exception's name
otherwise).  `valueFromWire` and `showV` (Go `%v` rendering of a wire value)
are the external collaborators. -/
def ResponseBytesToMap {T V U : Type} (spec : FunctionSpec T)
    (valueFromWire : T → V → Except String U) (showV : V → String)
    (dr : Except String (Root V)) : PanicOr (Except String (List (String × U))) :=
  match responseBytesToWire dr with
  | PanicOr.fatal m => PanicOr.fatal m
  | PanicOr.ok (Except.error e) => PanicOr.ok (Except.error e)
  | PanicOr.ok (Except.ok fields) =>
    PanicOr.ok (processFields spec valueFromWire showV fields [])

/-- `checkException`: describe the exception carried by `fieldID`.
`typeName` is `Type.ThriftName()` of the external type system. -/
def checkException {T : Type} (spec : FunctionSpec T) (typeName : T → String)
    (fieldID : Int) : String :=
  match spec.resultSpec with
  | none => msgNoExceptions
  | some rs =>
    if rs.exceptions.length = 0 then msgNoExceptions
    else
      match rs.exceptions.find? (fun ex => ex.id == fieldID) with
      | some ex => ex.name ++ strSpace ++ typeName ex.type
      | none => msgUnknown

/-- `CheckSuccess`: `PanicOr.ok none` is a nil error, `PanicOr.ok (some m)`
is an error with message `m`. -/
def CheckSuccess {T V : Type} (spec : FunctionSpec T) (typeName : T → String)
    (showV : V → String) (dr : Except String (Root V)) : PanicOr (Option String) :=
  match responseBytesToWire dr with
  | PanicOr.fatal m => PanicOr.fatal m
  | PanicOr.ok (Except.error e) => PanicOr.ok (some (msgCouldNotDeserialize ++ e))
  | PanicOr.ok (Except.ok fields) =>
    PanicOr.ok
      (match returnTypeOf spec, fields with
       | none, [] => none
       | none, f :: _ =>
         if f.id = 0 then some (msgVoidUnexpected ++ fmtFields showV fields)
         else some (msgVoidException ++ checkException spec typeName f.id)
       | some _, [f] =>
         if f.id = 0 then none
         else some (msgReturnException ++ checkException spec typeName f.id)
       | some _, fs => some (msgNotOneField ++ fmtFields showV fs))

/-- A single-field envelope carrying a declared exception whose value
decodes per the exception's declared type (spec section 3). -/
def ExceptionField {T V U : Type} (spec : FunctionSpec T)
    (valueFromWire : T → V → Except String U) (fields : List (WField V)) : Prop :=
  ∃ (i : Int) (v : V) (ex : FieldSpec T) (u : U),
    fields = [⟨i, v⟩] ∧ i ≠ 0 ∧ lookupEx spec i = some ex ∧
      valueFromWire ex.type v = Except.ok u

/-- Modelled from the spec: the section-3 envelope invariants.  A well-formed
envelope for a method with a return type contains exactly one field, with id 0
and a value decodable as the return type, or exactly one declared-exception
field; for a void method it contains zero fields or exactly one
declared-exception field. -/
def WellFormedEnvelope {T V U : Type} (spec : FunctionSpec T)
    (valueFromWire : T → V → Except String U) (fields : List (WField V)) : Prop :=
  match returnTypeOf spec with
  | some rt =>
    (∃ (v : V) (u : U), fields = [⟨0, v⟩] ∧ valueFromWire rt v = Except.ok u) ∨
      ExceptionField spec valueFromWire fields
  | none => fields = [] ∨ ExceptionField spec valueFromWire fields

/-- Does the Go map contain an entry for key `k`? -/
def mapHasKey {U : Type} (m : List (String × U)) (k : String) : Bool :=
  (m.find? (fun p => p.1 == k)).isSome

/-! ## Concrete instantiations of the external collaborators (for witnesses).
Wire values, type descriptors and decoded native values are all `Nat`;
`valueFromWire` decodes every value to itself. -/

def vfw0 : Nat → Nat → Except String Nat := fun _ v => Except.ok v

def showV0 : Nat → String := fun v => toString v

def typeName0 : Nat → String := fun t => toString t

def strEx : String := "Ex"

/-- A method with return type and no declared exceptions. -/
def specRet : FunctionSpec Nat := ⟨some ⟨some 1, []⟩⟩

/-- A method with return type and one declared exception `Ex` with id 7. -/
def specRetEx : FunctionSpec Nat := ⟨some ⟨some 1, [⟨7, strEx, 3⟩]⟩⟩

/-- A void method whose `ResultSpec` is `nil`. -/
def specVoidNil : FunctionSpec Nat := ⟨none⟩

/-- A void method with one declared exception `Ex` with id 7. -/
def specVoidEx : FunctionSpec Nat := ⟨some ⟨none, [⟨7, strEx, 3⟩]⟩⟩

/-- A successful codec decode yielding a struct with the given fields. -/
def drStruct (fs : List (WField Nat)) : Except String (Root Nat) :=
  Except.ok ⟨WireType.tStruct, fs⟩

end Thrift

namespace Http

/-! ## HTTP transport call layer.

The transport implementation is not under `src/` (only its test is), so the
definitions in this section are modelled from the spec (section 4.4), with the
header names, error substrings and the no-deadline default pinned by the
repository's own test `transport/http_test.go`. -/

def errNoURLs : String := "no URLs"

def errMissingTarget : String := "missing target"

def hdrService : String := "RPC-Service"

def hdrCaller : String := "RPC-Caller"

def hdrProcedure : String := "RPC-Procedure"

def hdrTTL : String := "Context-TTL-MS"

def msgEOF : String := "EOF"

def msgUnexpectedEOF : String := "unexpected EOF"

def msgNonSuccess : String := "non-success response code: "

def strEmpty : String := ""

def strSource : String := "source"

def strTarget : String := "target"

/-- The error substring the spec requires for a 400 reply. -/
def phrase400 : String := "non-success response code: 400"

/-- A sample endpoint URL (for witnesses). -/
def strURL : String := "http://localhost:1234/rpc"

/-- Construction options: endpoint URLs, optional source service name
(empty string means unset), required target service name. -/
structure HTTPOptions where
  urls : List String
  sourceService : String
  targetService : String
  deriving DecidableEq

/-- A constructed transport: the validated, immutable configuration. -/
structure Transport where
  urls : List String
  sourceService : String
  targetService : String
  deriving DecidableEq

/-- A request: method name, opaque byte payload, extra headers. -/
structure Request where
  method : String
  body : List Nat
  headers : List (String × String)
  deriving DecidableEq

/-- A sample request (for witnesses). -/
def reqSample : Request := ⟨"method", [1, 2, 3], []⟩

/-- A response: byte payload and headers from the remote peer. -/
structure Response where
  body : List Nat
  headers : List (String × String)
  deriving DecidableEq

/-- The outbound HTTP request as seen by the remote peer. -/
structure SentRequest where
  url : String
  headers : List (String × String)
  body : List Nat
  deriving DecidableEq

/-- What the remote peer does with the exchange: a definitive reply with a
status code, headers and body; a connection reset before any reply bytes;
or a flush of a partial body followed by a reset. -/
inductive PeerBehavior where
  | reply (status : Nat) (headers : List (String × String)) (body : List Nat)
  | resetBeforeReply
  | resetAfterPartial (partialBody : List Nat)
  deriving DecidableEq

/-- Modelled from the spec: `HTTP(options)` constructor validation (section
4.4): at least one URL and a non-empty target service name are required;
the source service name is optional. -/
def HTTP (opts : HTTPOptions) : Except String Transport :=
  if opts.urls = [] then Except.error errNoURLs
  else if opts.targetService = strEmpty then Except.error errMissingTarget
  else Except.ok ⟨opts.urls, opts.sourceService, opts.targetService⟩

/-- First value for a header key (HTTP `Header.Get`). -/
def headerGet (hs : List (String × String)) (k : String) : Option String :=
  (hs.find? (fun p => p.1 == k)).map (fun p => p.2)

/-- HTTP `Header.Set`: overwrite any existing entries for the key. -/
def setHeader (hs : List (String × String)) (k v : String) : List (String × String) :=
  (k, v) :: hs.filter (fun p => p.1 != k)

/-- The fixed TTL advertised when the caller supplies no deadline
(pinned to one second by the repository's transport test). -/
def defaultTTLms : Nat := 1000

/-- The value of the TTL header: remaining whole milliseconds until the
caller's deadline, or the fixed default when no deadline is set. -/
def ttlMS (remaining : Option Nat) : Nat :=
  match remaining with
  | none => defaultTTLms
  | some n => n

/-- Modelled from the spec: the outbound request built by `Call` (section
4.4): the request payload as the body, the caller's extra headers, plus the
service, caller (when a source service is configured), procedure and TTL
metadata headers; the single configured endpoint as the URL. -/
def buildRequest (t : Transport) (remaining : Option Nat) (r : Request) : SentRequest :=
  let h0 := if t.sourceService = strEmpty then r.headers
            else setHeader r.headers hdrCaller t.sourceService
  let h1 := setHeader h0 hdrService t.targetService
  let h2 := setHeader h1 hdrProcedure r.method
  let h3 := setHeader h2 hdrTTL (toString (ttlMS remaining))
  ⟨t.urls.headD strEmpty, h3, r.body⟩

/-- Modelled from the spec: classification of the exchange outcome (section
4.4): a reset before any reply surfaces the underlying end-of-stream read
failure; a reset after a partial body surfaces the truncated-read failure;
a non-2xx status fails with the documented message; a 2xx reply returns the
peer's body and headers unchanged. -/
def classifyReply (pb : PeerBehavior) : Except String Response :=
  match pb with
  | PeerBehavior.resetBeforeReply => Except.error msgEOF
  | PeerBehavior.resetAfterPartial _ => Except.error msgUnexpectedEOF
  | PeerBehavior.reply st hs body =>
    if 200 ≤ st ∧ st < 300 then Except.ok ⟨body, hs⟩
    else Except.error (msgNonSuccess ++ toString st)

/-- Modelled from the spec: `Call` (section 4.4) sends the built request to
the remote peer (`peer` gives the peer's behavior on the request it sees)
and classifies the outcome. -/
def call (t : Transport) (remaining : Option Nat) (r : Request)
    (peer : SentRequest → PeerBehavior) : Except String Response :=
  classifyReply (peer (buildRequest t remaining r))

end Http

/-! ## Lemmas about the substring test -/

theorem leadEq_append (sub : List Char) :
    ∀ l l' : List Char, leadEq sub l = true → leadEq sub (l ++ l') = true := by
  induction sub with
  | nil => intro l l' _; rfl
  | cons a as ih =>
    intro l l' h
    cases l with
    | nil => simp [leadEq] at h
    | cons b bs =>
      simp only [leadEq, Bool.and_eq_true] at h
      simp only [List.cons_append, leadEq, Bool.and_eq_true]
      exact ⟨h.1, ih bs l' h.2⟩

theorem containsSeq_of_leadEq (sub l : List Char) (h : leadEq sub l = true) :
    containsSeq sub l = true := by
  cases l with
  | nil => simpa [containsSeq] using h
  | cons b bs => simp [containsSeq, h]

theorem containsSeq_append_left (sub : List Char) :
    ∀ a b : List Char, containsSeq sub b = true → containsSeq sub (a ++ b) = true := by
  intro a
  induction a with
  | nil => intro b h; simpa using h
  | cons c cs ih =>
    intro b h
    simp only [List.cons_append, containsSeq, Bool.or_eq_true]
    exact Or.inr (ih b h)

theorem containsSeq_append_right (sub : List Char) :
    ∀ a b : List Char, containsSeq sub a = true → containsSeq sub (a ++ b) = true := by
  intro a
  induction a with
  | nil =>
    intro b h
    simp only [containsSeq] at h
    refine containsSeq_of_leadEq sub b ?_
    cases sub with
    | nil => rfl
    | cons x xs => simp [leadEq] at h
  | cons c cs ih =>
    intro b h
    simp only [containsSeq, Bool.or_eq_true] at h
    simp only [List.cons_append, containsSeq, Bool.or_eq_true]
    cases h with
    | inl h => exact Or.inl (leadEq_append sub (c :: cs) b h)
    | inr h => exact Or.inr (ih b h)

theorem isSubstr_append_right (sub a b : String) (h : IsSubstr sub a = true) :
    IsSubstr sub (a ++ b) = true := by
  simpa [IsSubstr, String.data_append] using
    containsSeq_append_right sub.data a.data b.data h

theorem isSubstr_append_left (sub a b : String) (h : IsSubstr sub b = true) :
    IsSubstr sub (a ++ b) = true := by
  simpa [IsSubstr, String.data_append] using
    containsSeq_append_left sub.data a.data b.data h

/-! ## Lemmas about header maps -/

theorem find_filter_ne (k k' : String) (h : k' ≠ k) :
    ∀ hs : List (String × String),
      (hs.filter (fun p => p.1 != k)).find? (fun p => p.1 == k') =
        hs.find? (fun p => p.1 == k') := by
  intro hs
  induction hs with
  | nil => rfl
  | cons p ps ih =>
    by_cases hp : p.1 = k
    · have h1 : (p.1 != k) = false := by simp [hp]
      have h2 : (p.1 == k') = false := by
        simp only [beq_eq_false_iff_ne, ne_eq, hp]
        exact fun hk => h hk.symm
      simp [List.filter_cons, h1, List.find?_cons, h2, ih]
    · have h1 : (p.1 != k) = true := by simp [hp]
      by_cases hq : p.1 = k'
      · simp [List.filter_cons, h1, List.find?_cons, hq, h]
      · have h2 : (p.1 == k') = false := by simp [hq]
        simp [List.filter_cons, h1, List.find?_cons, h2, ih]

theorem headerGet_setHeader_same (hs : List (String × String)) (k v : String) :
    Http.headerGet (Http.setHeader hs k v) k = some v := by
  simp [Http.headerGet, Http.setHeader, List.find?_cons]

theorem headerGet_setHeader_other (hs : List (String × String)) (k v k' : String)
    (h : k' ≠ k) : Http.headerGet (Http.setHeader hs k v) k' = Http.headerGet hs k' := by
  have h2 : ((k, v).1 == k') = false := by
    simp only [beq_eq_false_iff_ne, ne_eq]
    exact fun hk => h hk.symm
  simp [Http.headerGet, Http.setHeader, List.find?_cons, h2, find_filter_ne k k' h hs]

/-! ## Claim theorems -/

open Thrift Http

/-- C1: for every FunctionSpec whose metadata declares a return type, and every
well-formed envelope whose decoded struct contains exactly one field
`{id:0, value:v}` with `v` decodable as that return type, `CheckSuccess`
returns no error and `ResponseBytesToMap` returns the one-entry map
`{"result": decode(v)}`. -/
theorem c1_return_success {T V U : Type} (spec : FunctionSpec T)
    (valueFromWire : T → V → Except String U) (showV : V → String) (typeName : T → String)
    (rt : T) (v : V) (u : U)
    (hrt : returnTypeOf spec = some rt)
    (hdec : valueFromWire rt v = Except.ok u) :
    CheckSuccess spec typeName showV (Except.ok ⟨WireType.tStruct, [⟨0, v⟩]⟩) =
      PanicOr.ok none ∧
    ResponseBytesToMap spec valueFromWire showV (Except.ok ⟨WireType.tStruct, [⟨0, v⟩]⟩) =
      PanicOr.ok (Except.ok [(strResult, u)]) := by
  constructor
  · simp [CheckSuccess, responseBytesToWire, hrt]
  · simp [ResponseBytesToMap, responseBytesToWire, processFields, hrt, hdec, mapInsert]

theorem c1_witness :
    CheckSuccess specRet typeName0 showV0 (drStruct [⟨0, 7⟩]) = PanicOr.ok none ∧
    ResponseBytesToMap specRet vfw0 showV0 (drStruct [⟨0, 7⟩]) =
      PanicOr.ok (Except.ok [(strResult, 7)]) :=
  c1_return_success specRet vfw0 showV0 typeName0 1 7 7 rfl rfl

/-- C6: if the codec successfully decodes the bytes but the root wire value's
type tag is not `TStruct`, the envelope decoder panics rather than returning a
recoverable error; when the codec honours its contract (struct-tagged root),
the fields are returned and the panic branch is unreachable; a codec error is
an ordinary recoverable error, never a panic. -/
theorem c6_decoder_root_type_abort {V : Type} (w : Root V) :
    (w.tag ≠ WireType.tStruct →
      responseBytesToWire (Except.ok w) = PanicOr.fatal msgUnexpectedType) ∧
    (w.tag = WireType.tStruct →
      responseBytesToWire (Except.ok w) = PanicOr.ok (Except.ok w.fields)) ∧
    (∀ e : String, ∀ m : String,
      responseBytesToWire (V := V) (Except.error e) ≠ PanicOr.fatal m) := by
  refine ⟨?_, ?_, ?_⟩
  · intro h; simp [responseBytesToWire, h]
  · intro h; simp [responseBytesToWire, h]
  · intro e m; simp [responseBytesToWire]

theorem c6_witness :
    responseBytesToWire (V := Nat) (Except.ok ⟨WireType.tBool, []⟩) =
      PanicOr.fatal msgUnexpectedType ∧
    responseBytesToWire (V := Nat) (Except.ok ⟨WireType.tStruct, [⟨0, 7⟩]⟩) =
      PanicOr.ok (Except.ok [⟨0, 7⟩]) :=
  ⟨(c6_decoder_root_type_abort ⟨WireType.tBool, []⟩).1 (by decide),
   (c6_decoder_root_type_abort ⟨WireType.tStruct, [⟨0, 7⟩]⟩).2.1 rfl⟩

/-- Helper: for a void method, the `ResponseBytesToMap` field loop fails on
any field list containing a field with id 0. -/
theorem processFields_void_err {T V U : Type} (spec : FunctionSpec T)
    (valueFromWire : T → V → Except String U) (showV : V → String)
    (hvoid : returnTypeOf spec = none) :
    ∀ (fields : List (WField V)) (acc : List (String × U)),
      (∃ f ∈ fields, f.id = 0) →
      ∃ e, processFields spec valueFromWire showV fields acc = Except.error e := by
  intro fields
  induction fields with
  | nil => intro acc h; simp at h
  | cons f rest ih =>
    intro acc h
    by_cases hf : f.id = 0
    · refine ⟨msgVoidResult ++ showV f.value, ?_⟩
      simp [processFields, hf, hvoid]
    · obtain ⟨g, hg, hg0⟩ := h
      have hgrest : g ∈ rest := by
        cases hg with
        | head => exact absurd hg0 hf
        | tail _ hmem => exact hmem
      cases hlu : lookupEx spec f.id with
      | none =>
        refine ⟨msgUnknownEx ++ toString f.id ++ msgSep ++ showV f.value, ?_⟩
        simp [processFields, hf, hlu]
      | some ex =>
        cases hvw : valueFromWire ex.type f.value with
        | error e =>
          refine ⟨msgParseField ++ toString f.id ++ msgSep ++ e, ?_⟩
          simp [processFields, hf, hlu, hvw]
        | ok u =>
          obtain ⟨e, he⟩ := ih (mapInsert acc ex.name u) ⟨g, hgrest, hg0⟩
          refine ⟨e, ?_⟩
          simp [processFields, hf, hlu, hvw, he]

/-- C4 (amended): for every void method and every decodable envelope
containing a field with id 0, both `ResponseBytesToMap` and `CheckSuccess`
fail; when the id-0 field comes first, `ResponseBytesToMap`'s message
contains "unexpected result for void method" and `CheckSuccess`'s message
contains "void method got unexpected result" (not the former phrase). -/
theorem c4_void_result_field {T V U : Type} (spec : FunctionSpec T)
    (valueFromWire : T → V → Except String U) (showV : V → String) (typeName : T → String)
    (fields : List (WField V))
    (hvoid : returnTypeOf spec = none)
    (hzero : ∃ f ∈ fields, f.id = 0) :
    (∃ e, ResponseBytesToMap spec valueFromWire showV (Except.ok ⟨WireType.tStruct, fields⟩) =
        PanicOr.ok (Except.error e)) ∧
    (∃ m, CheckSuccess spec typeName showV (Except.ok ⟨WireType.tStruct, fields⟩) =
        PanicOr.ok (some m)) ∧
    (∀ (v : V) (rest : List (WField V)), fields = ⟨0, v⟩ :: rest →
      ResponseBytesToMap spec valueFromWire showV (Except.ok ⟨WireType.tStruct, fields⟩) =
          PanicOr.ok (Except.error (msgVoidResult ++ showV v)) ∧
      IsSubstr phraseVoidMap (msgVoidResult ++ showV v) = true ∧
      CheckSuccess spec typeName showV (Except.ok ⟨WireType.tStruct, fields⟩) =
          PanicOr.ok (some (msgVoidUnexpected ++ fmtFields showV fields)) ∧
      IsSubstr phraseVoidCheck (msgVoidUnexpected ++ fmtFields showV fields) = true) := by
  refine ⟨?_, ?_, ?_⟩
  · obtain ⟨e, he⟩ := processFields_void_err spec valueFromWire showV hvoid fields [] hzero
    refine ⟨e, ?_⟩
    simp [ResponseBytesToMap, responseBytesToWire, he]
  · cases fields with
    | nil => simp at hzero
    | cons f rest =>
      by_cases hf : f.id = 0
      · refine ⟨msgVoidUnexpected ++ fmtFields showV (f :: rest), ?_⟩
        simp [CheckSuccess, responseBytesToWire, hvoid, hf]
      · refine ⟨msgVoidException ++ checkException spec typeName f.id, ?_⟩
        simp [CheckSuccess, responseBytesToWire, hvoid, hf]
  · intro v rest heq
    subst heq
    refine ⟨?_, ?_, ?_, ?_⟩
    · simp [ResponseBytesToMap, responseBytesToWire, processFields, hvoid]
    · exact isSubstr_append_right phraseVoidMap msgVoidResult (showV v) (by decide)
    · simp [CheckSuccess, responseBytesToWire, hvoid]
    · exact isSubstr_append_right phraseVoidCheck msgVoidUnexpected
        (fmtFields showV (⟨0, v⟩ :: rest)) (by decide)

/-- C4 is false as stated: for the void method with nil result spec and the
single-field envelope `{id:0, value:7}`, `CheckSuccess` fails but its message
does not contain the substring "unexpected result for void method". -/
theorem c4_counterexample :
    CheckSuccess specVoidNil typeName0 showV0 (drStruct [⟨0, 7⟩]) =
      PanicOr.ok (some (msgVoidUnexpected ++ fmtFields showV0 [⟨0, 7⟩])) ∧
    IsSubstr phraseVoidMap (msgVoidUnexpected ++ fmtFields showV0 [⟨0, 7⟩]) = false ∧
    ResponseBytesToMap specVoidNil vfw0 showV0 (drStruct [⟨0, 7⟩]) =
      PanicOr.ok (Except.error (msgVoidResult ++ showV0 7)) :=
  ⟨rfl, by decide, rfl⟩

theorem c4_witness :
    ResponseBytesToMap specVoidNil vfw0 showV0 (drStruct [⟨0, 7⟩]) =
        PanicOr.ok (Except.error (msgVoidResult ++ showV0 7)) ∧
    IsSubstr phraseVoidMap (msgVoidResult ++ showV0 7) = true ∧
    CheckSuccess specVoidNil typeName0 showV0 (drStruct [⟨0, 7⟩]) =
        PanicOr.ok (some (msgVoidUnexpected ++ fmtFields showV0 [⟨0, 7⟩])) ∧
    IsSubstr phraseVoidCheck (msgVoidUnexpected ++ fmtFields showV0 [⟨0, 7⟩]) = true :=
  (c4_void_result_field specVoidNil vfw0 showV0 typeName0 [⟨0, 7⟩] rfl
      ⟨⟨0, 7⟩, List.mem_singleton_self _, rfl⟩).2.2 7 [] rfl

/-- C2 (amended): for a void method and a decodable envelope with more than
one field, `CheckSuccess` returns an error; when the first field has id 0 the
error reports all the fields, and when the first field has a nonzero id the
error only describes the first field's exception classification. -/
theorem c2_void_multi_field {T V : Type} (spec : FunctionSpec T) (typeName : T → String)
    (showV : V → String) (f : WField V) (rest : List (WField V))
    (hvoid : returnTypeOf spec = none)
    (_hrest : rest ≠ []) :
    (f.id = 0 →
      CheckSuccess spec typeName showV (Except.ok ⟨WireType.tStruct, f :: rest⟩) =
        PanicOr.ok (some (msgVoidUnexpected ++ fmtFields showV (f :: rest)))) ∧
    (f.id ≠ 0 →
      CheckSuccess spec typeName showV (Except.ok ⟨WireType.tStruct, f :: rest⟩) =
        PanicOr.ok (some (msgVoidException ++ checkException spec typeName f.id))) := by
  constructor
  · intro h; simp [CheckSuccess, responseBytesToWire, hvoid, h]
  · intro h; simp [CheckSuccess, responseBytesToWire, hvoid, h]

/-- C2 is false as stated: for the void method with nil result spec and the
two-field envelope `[{id:1}, {id:2}]`, `CheckSuccess`'s error does not report
the offending fields at all (the rendering of field `{id:2, value:7}` does
not occur in the message). -/
theorem c2_counterexample :
    CheckSuccess specVoidNil typeName0 showV0 (drStruct [⟨1, 6⟩, ⟨2, 7⟩]) =
      PanicOr.ok (some (msgVoidException ++ msgNoExceptions)) ∧
    IsSubstr (fmtField showV0 ⟨2, 7⟩) (msgVoidException ++ msgNoExceptions) = false :=
  ⟨rfl, by decide⟩

theorem c2_witness :
    CheckSuccess specVoidNil typeName0 showV0 (drStruct [⟨0, 5⟩, ⟨1, 6⟩]) =
      PanicOr.ok (some (msgVoidUnexpected ++ fmtFields showV0 [⟨0, 5⟩, ⟨1, 6⟩])) :=
  (c2_void_multi_field specVoidNil typeName0 showV0 ⟨0, 5⟩ [⟨1, 6⟩] rfl (by decide)).1 rfl

/-- C5 (amended): for a return-typed method and a decodable two-field
envelope, `CheckSuccess` fails with "method with return did not get 1 field
in result" listing all the fields; `ResponseBytesToMap` does not check the
field count and can succeed on such an envelope. -/
theorem c5_return_two_fields {T V : Type} (spec : FunctionSpec T) (typeName : T → String)
    (showV : V → String) (rt : T) (f g : WField V)
    (hrt : returnTypeOf spec = some rt) :
    CheckSuccess spec typeName showV (Except.ok ⟨WireType.tStruct, [f, g]⟩) =
      PanicOr.ok (some (msgNotOneField ++ fmtFields showV [f, g])) := by
  simp [CheckSuccess, responseBytesToWire, hrt]

/-- C5 is false as stated: on the return-typed method `specRet` and the
two-field envelope `[{id:0, value:7}, {id:0, value:8}]`, `ResponseBytesToMap`
succeeds (the second result overwrites the first), so the two operations do
not both fail. -/
theorem c5_counterexample :
    ResponseBytesToMap specRet vfw0 showV0 (drStruct [⟨0, 7⟩, ⟨0, 8⟩]) =
      PanicOr.ok (Except.ok [(strResult, 8)]) ∧
    CheckSuccess specRet typeName0 showV0 (drStruct [⟨0, 7⟩, ⟨0, 8⟩]) =
      PanicOr.ok (some (msgNotOneField ++ fmtFields showV0 [⟨0, 7⟩, ⟨0, 8⟩])) :=
  ⟨rfl, rfl⟩

theorem c5_witness :
    CheckSuccess specRet typeName0 showV0 (drStruct [⟨0, 7⟩, ⟨1, 8⟩]) =
      PanicOr.ok (some (msgNotOneField ++ fmtFields showV0 [⟨0, 7⟩, ⟨1, 8⟩])) :=
  c5_return_two_fields specRet typeName0 showV0 1 ⟨0, 7⟩ ⟨1, 8⟩ rfl

/-- C3 (amended, restricted to single-field envelopes): for a decodable
envelope whose single field has a nonzero id, `ResponseBytesToMap` fails with
the "got unknown exception with ID" error naming the id and the raw value
when the id is not declared, and `CheckSuccess` fails with a message ending
in `checkException`'s classification: "unknown, method has no exceptions"
when no exceptions are declared, "unknown" when declared but unmatched, and
the declared name plus type name when matched. -/
theorem c3_single_exception_field {T V U : Type} (spec : FunctionSpec T)
    (valueFromWire : T → V → Except String U) (showV : V → String) (typeName : T → String)
    (i : Int) (v : V) (hi : i ≠ 0) :
    (lookupEx spec i = none →
      ResponseBytesToMap spec valueFromWire showV (Except.ok ⟨WireType.tStruct, [⟨i, v⟩]⟩) =
        PanicOr.ok (Except.error (msgUnknownEx ++ toString i ++ msgSep ++ showV v))) ∧
    (∃ pre, CheckSuccess spec typeName showV (Except.ok ⟨WireType.tStruct, [⟨i, v⟩]⟩) =
        PanicOr.ok (some (pre ++ checkException spec typeName i))) ∧
    (spec.resultSpec = none → checkException spec typeName i = msgNoExceptions) ∧
    (∀ rs, spec.resultSpec = some rs → rs.exceptions = [] →
      checkException spec typeName i = msgNoExceptions) ∧
    (∀ rs, spec.resultSpec = some rs → rs.exceptions ≠ [] →
      getFieldMap rs.exceptions i = none → checkException spec typeName i = msgUnknown) ∧
    (∀ rs ex, spec.resultSpec = some rs → getFieldMap rs.exceptions i = some ex →
      checkException spec typeName i = ex.name ++ strSpace ++ typeName ex.type) := by
  refine ⟨?_, ?_, ?_, ?_, ?_, ?_⟩
  · intro hlu
    simp [ResponseBytesToMap, responseBytesToWire, processFields, hi, hlu]
  · cases hrt : returnTypeOf spec with
    | none =>
      refine ⟨msgVoidException, ?_⟩
      simp [CheckSuccess, responseBytesToWire, hrt, hi]
    | some rt =>
      refine ⟨msgReturnException, ?_⟩
      simp [CheckSuccess, responseBytesToWire, hrt, hi]
  · intro h
    simp [checkException, h]
  · intro rs h hnil
    simp [checkException, h, hnil]
  · intro rs h hne hfm
    have hlen : rs.exceptions.length ≠ 0 := by
      simpa [List.length_eq_zero] using hne
    have hfm' : rs.exceptions.find? (fun ex => ex.id == i) = none := by
      simpa [getFieldMap] using hfm
    simp [checkException, h, hlen, hfm']
  · intro rs ex h hfm
    have hfm' : rs.exceptions.find? (fun ex => ex.id == i) = some ex := by
      simpa [getFieldMap] using hfm
    have hne : rs.exceptions ≠ [] := by
      intro hcon
      rw [hcon] at hfm'
      simp at hfm'
    have hlen : rs.exceptions.length ≠ 0 := by
      simpa [List.length_eq_zero] using hne
    simp [checkException, h, hlen, hfm']

/-- C3 is false as stated: the envelope `[{id:0, value:7}, {id:5, value:8}]`
for the return-typed method `specRet` (which declares no exceptions) contains
the unknown nonzero id 5, and `ResponseBytesToMap` does fail naming it, but
`CheckSuccess`'s error is the field-count message, which contains no
"unknown" classification at all. -/
theorem c3_counterexample :
    ResponseBytesToMap specRet vfw0 showV0 (drStruct [⟨0, 7⟩, ⟨5, 8⟩]) =
      PanicOr.ok (Except.error (msgUnknownEx ++ toString (5 : Int) ++ msgSep ++ showV0 8)) ∧
    CheckSuccess specRet typeName0 showV0 (drStruct [⟨0, 7⟩, ⟨5, 8⟩]) =
      PanicOr.ok (some (msgNotOneField ++ fmtFields showV0 [⟨0, 7⟩, ⟨5, 8⟩])) ∧
    IsSubstr msgUnknown (msgNotOneField ++ fmtFields showV0 [⟨0, 7⟩, ⟨5, 8⟩]) = false :=
  ⟨rfl, rfl, by decide⟩

theorem c3_witness :
    ResponseBytesToMap specRetEx vfw0 showV0 (drStruct [⟨5, 8⟩]) =
      PanicOr.ok (Except.error (msgUnknownEx ++ toString (5 : Int) ++ msgSep ++ showV0 8)) ∧
    checkException specRetEx typeName0 5 = msgUnknown ∧
    checkException specRetEx typeName0 7 = strEx ++ strSpace ++ typeName0 3 :=
  ⟨(c3_single_exception_field specRetEx vfw0 showV0 typeName0 5 8 (by decide)).1 rfl,
   (c3_single_exception_field specRetEx vfw0 showV0 typeName0 5 8 (by decide)).2.2.2.2.1
     ⟨some 1, [⟨7, strEx, 3⟩]⟩ rfl (by decide) rfl,
   (c3_single_exception_field specRetEx vfw0 showV0 typeName0 7 9 (by decide)).2.2.2.2.2
     ⟨some 1, [⟨7, strEx, 3⟩]⟩ ⟨7, strEx, 3⟩ rfl rfl⟩

/-- Helper: a successful exception lookup comes from the declared list. -/
theorem lookupEx_mem {T : Type} (spec : FunctionSpec T) (i : Int) (ex : FieldSpec T)
    (h : lookupEx spec i = some ex) : ex ∈ declaredExceptions spec := by
  unfold lookupEx at h
  cases hrs : spec.resultSpec with
  | none => rw [hrs] at h; exact absurd h (by simp)
  | some rs =>
    rw [hrs] at h
    unfold declaredExceptions
    rw [hrs]
    exact List.mem_of_find?_eq_some (by simpa [getFieldMap] using h)

/-- C7 (amended): for every well-formed envelope on which
`ResponseBytesToMap` succeeds, the returned mapping contains at most one
entry, and it is either empty (void success), or its single entry is keyed
"result" (success), or keyed by a declared exception's name (exception). -/
theorem c7_wellformed_map {T V U : Type} (spec : FunctionSpec T)
    (valueFromWire : T → V → Except String U) (showV : V → String)
    (fields : List (WField V)) (m : List (String × U))
    (hwf : WellFormedEnvelope spec valueFromWire fields)
    (hok : ResponseBytesToMap spec valueFromWire showV (Except.ok ⟨WireType.tStruct, fields⟩) =
      PanicOr.ok (Except.ok m)) :
    m.length ≤ 1 ∧
    (m = [] ∨ (∃ u, m = [(strResult, u)]) ∨
      (∃ ex ∈ declaredExceptions spec, ∃ u, m = [(ex.name, u)])) := by
  unfold WellFormedEnvelope at hwf
  cases hrt : returnTypeOf spec with
  | some rt =>
    rw [hrt] at hwf
    cases hwf with
    | inl h =>
      obtain ⟨v, u, hf, hd⟩ := h
      subst hf
      have hcomp : ResponseBytesToMap spec valueFromWire showV
          (Except.ok ⟨WireType.tStruct, [⟨0, v⟩]⟩) =
          PanicOr.ok (Except.ok [(strResult, u)]) := by
        simp [ResponseBytesToMap, responseBytesToWire, processFields, hrt, hd, mapInsert]
      rw [hcomp] at hok
      simp only [PanicOr.ok.injEq, Except.ok.injEq] at hok
      subst hok
      exact ⟨by simp, Or.inr (Or.inl ⟨u, rfl⟩)⟩
    | inr h =>
      obtain ⟨i, v, ex, u, hf, hi, hlu, hd⟩ := h
      subst hf
      have hcomp : ResponseBytesToMap spec valueFromWire showV
          (Except.ok ⟨WireType.tStruct, [⟨i, v⟩]⟩) =
          PanicOr.ok (Except.ok [(ex.name, u)]) := by
        simp [ResponseBytesToMap, responseBytesToWire, processFields, hi, hlu, hd, mapInsert]
      rw [hcomp] at hok
      simp only [PanicOr.ok.injEq, Except.ok.injEq] at hok
      subst hok
      exact ⟨by simp, Or.inr (Or.inr ⟨ex, lookupEx_mem spec i ex hlu, u, rfl⟩)⟩
  | none =>
    rw [hrt] at hwf
    cases hwf with
    | inl h =>
      subst h
      have hcomp : ResponseBytesToMap spec valueFromWire showV
          (Except.ok ⟨WireType.tStruct, []⟩) =
          PanicOr.ok (Except.ok ([] : List (String × U))) := by
        simp [ResponseBytesToMap, responseBytesToWire, processFields]
      rw [hcomp] at hok
      simp only [PanicOr.ok.injEq, Except.ok.injEq] at hok
      subst hok
      exact ⟨by simp, Or.inl rfl⟩
    | inr h =>
      obtain ⟨i, v, ex, u, hf, hi, hlu, hd⟩ := h
      subst hf
      have hcomp : ResponseBytesToMap spec valueFromWire showV
          (Except.ok ⟨WireType.tStruct, [⟨i, v⟩]⟩) =
          PanicOr.ok (Except.ok [(ex.name, u)]) := by
        simp [ResponseBytesToMap, responseBytesToWire, processFields, hi, hlu, hd, mapInsert]
      rw [hcomp] at hok
      simp only [PanicOr.ok.injEq, Except.ok.injEq] at hok
      subst hok
      exact ⟨by simp, Or.inr (Or.inr ⟨ex, lookupEx_mem spec i ex hlu, u, rfl⟩)⟩

/-- C7 is false as stated: the empty envelope is well-formed for a void
method, `ResponseBytesToMap` succeeds on it with the empty map, and then
neither the key "result" nor any declared exception's name is present, so
"exactly one of the two holds" fails. -/
theorem c7_counterexample :
    WellFormedEnvelope specVoidNil vfw0 [] ∧
    ResponseBytesToMap specVoidNil vfw0 showV0 (drStruct []) =
      PanicOr.ok (Except.ok ([] : List (String × Nat))) ∧
    mapHasKey ([] : List (String × Nat)) strResult = false ∧
    declaredExceptions specVoidNil = [] :=
  ⟨Or.inl rfl, rfl, rfl, rfl⟩

theorem c7_witness :
    ([(strEx, 9)] : List (String × Nat)).length ≤ 1 ∧
    ([(strEx, 9)] = ([] : List (String × Nat)) ∨
      (∃ u, [(strEx, 9)] = [(strResult, u)]) ∨
      (∃ ex ∈ declaredExceptions specVoidEx, ∃ u, [(strEx, 9)] = [(ex.name, u)])) :=
  c7_wellformed_map specVoidEx vfw0 showV0 [⟨7, 9⟩] [(strEx, 9)]
    (Or.inr ⟨7, 9, ⟨7, strEx, 3⟩, 9, rfl, by decide, rfl, rfl⟩) rfl

/-- C8: for a transport constructed with one endpoint, target service
"target" and source service "source", a call whose 3-second deadline has at
most 100ms of elapsed time sends an outbound request whose procedure header
is the request's method, whose service and caller headers are the configured
names, and whose TTL header in whole milliseconds lies within [2900, 3000];
on a 2xx reply the response body and headers are the peer's, unchanged. -/
theorem c8_call_scenario (u : String) (r : Request) (e : Nat) (st : Nat)
    (hs : List (String × String)) (body : List Nat)
    (he : e ≤ 100) (hst : 200 ≤ st ∧ st < 300) :
    HTTP ⟨[u], strSource, strTarget⟩ = Except.ok ⟨[u], strSource, strTarget⟩ ∧
    headerGet (buildRequest ⟨[u], strSource, strTarget⟩ (some (3000 - e)) r).headers
      hdrProcedure = some r.method ∧
    headerGet (buildRequest ⟨[u], strSource, strTarget⟩ (some (3000 - e)) r).headers
      hdrService = some strTarget ∧
    headerGet (buildRequest ⟨[u], strSource, strTarget⟩ (some (3000 - e)) r).headers
      hdrCaller = some strSource ∧
    headerGet (buildRequest ⟨[u], strSource, strTarget⟩ (some (3000 - e)) r).headers
      hdrTTL = some (toString (3000 - e)) ∧
    2900 ≤ 3000 - e ∧ 3000 - e ≤ 3000 ∧
    (buildRequest ⟨[u], strSource, strTarget⟩ (some (3000 - e)) r).url = u ∧
    (buildRequest ⟨[u], strSource, strTarget⟩ (some (3000 - e)) r).body = r.body ∧
    call ⟨[u], strSource, strTarget⟩ (some (3000 - e)) r
      (fun _ => PeerBehavior.reply st hs body) = Except.ok ⟨body, hs⟩ := by
  have hsrc : ¬(strSource = strEmpty) := by decide
  have hb : buildRequest ⟨[u], strSource, strTarget⟩ (some (3000 - e)) r =
      ⟨u, setHeader (setHeader (setHeader (setHeader r.headers hdrCaller strSource)
        hdrService strTarget) hdrProcedure r.method) hdrTTL (toString (3000 - e)),
        r.body⟩ := by
    simp [buildRequest, hsrc, ttlMS]
  have htgt : ¬(strTarget = strEmpty) := by decide
  refine ⟨?_, ?_, ?_, ?_, ?_, by omega, by omega, ?_, ?_, ?_⟩
  · simp [HTTP, htgt]
  · rw [hb]
    rw [headerGet_setHeader_other _ _ _ _ (by decide)]
    exact headerGet_setHeader_same _ _ _
  · rw [hb]
    rw [headerGet_setHeader_other _ _ _ _ (by decide),
      headerGet_setHeader_other _ _ _ _ (by decide)]
    exact headerGet_setHeader_same _ _ _
  · rw [hb]
    rw [headerGet_setHeader_other _ _ _ _ (by decide),
      headerGet_setHeader_other _ _ _ _ (by decide),
      headerGet_setHeader_other _ _ _ _ (by decide)]
    exact headerGet_setHeader_same _ _ _
  · rw [hb]
    exact headerGet_setHeader_same _ _ _
  · rw [hb]
  · rw [hb]
  · simp [call, classifyReply, hst]

theorem c8_witness :
    HTTP ⟨[strURL], strSource, strTarget⟩ = Except.ok ⟨[strURL], strSource, strTarget⟩ ∧
    headerGet (buildRequest ⟨[strURL], strSource, strTarget⟩ (some (3000 - 50)) reqSample).headers
      hdrProcedure = some reqSample.method ∧
    headerGet (buildRequest ⟨[strURL], strSource, strTarget⟩ (some (3000 - 50)) reqSample).headers
      hdrService = some strTarget ∧
    headerGet (buildRequest ⟨[strURL], strSource, strTarget⟩ (some (3000 - 50)) reqSample).headers
      hdrCaller = some strSource ∧
    headerGet (buildRequest ⟨[strURL], strSource, strTarget⟩ (some (3000 - 50)) reqSample).headers
      hdrTTL = some (toString (3000 - 50)) ∧
    2900 ≤ 3000 - 50 ∧ 3000 - 50 ≤ 3000 ∧
    (buildRequest ⟨[strURL], strSource, strTarget⟩ (some (3000 - 50)) reqSample).url = strURL ∧
    (buildRequest ⟨[strURL], strSource, strTarget⟩ (some (3000 - 50)) reqSample).body =
      reqSample.body ∧
    call ⟨[strURL], strSource, strTarget⟩ (some (3000 - 50)) reqSample
      (fun _ => PeerBehavior.reply 200 [] [1]) = Except.ok ⟨[1], []⟩ :=
  c8_call_scenario strURL reqSample 50 200 [] [1] (by decide) ⟨by decide, by decide⟩

/-- C9: a connection reset before any reply bytes fails with an error
mentioning "EOF"; a reset after a partial body fails with the distinct
truncated-read error "unexpected EOF"; an HTTP 400 reply fails with an error
containing "non-success response code: 400". -/
theorem c9_failure_classification (t : Transport) (rem : Option Nat) (r : Request)
    (pb : List Nat) (hs : List (String × String)) (body : List Nat) :
    call t rem r (fun _ => PeerBehavior.resetBeforeReply) = Except.error msgEOF ∧
    call t rem r (fun _ => PeerBehavior.resetAfterPartial pb) =
      Except.error msgUnexpectedEOF ∧
    msgEOF ≠ msgUnexpectedEOF ∧
    IsSubstr msgEOF msgUnexpectedEOF = true ∧
    call t rem r (fun _ => PeerBehavior.reply 400 hs body) =
      Except.error (msgNonSuccess ++ toString (400 : Nat)) ∧
    IsSubstr phrase400 (msgNonSuccess ++ toString (400 : Nat)) = true := by
  have h400 : ¬(200 ≤ 400 ∧ 400 < 300) := by omega
  exact ⟨rfl, rfl, by decide, by decide, by simp [call, classifyReply, h400], by decide⟩

/-- C10: when a call is made with no caller-supplied deadline, the transport
still sends the TTL header, advertising exactly 1000 milliseconds. -/
theorem c10_default_ttl (t : Transport) (r : Request) :
    headerGet (buildRequest t none r).headers hdrTTL = some (toString defaultTTLms) ∧
    defaultTTLms = 1000 :=
  ⟨headerGet_setHeader_same _ _ _, rfl⟩
